import Mathlib

/-!
# Verification of the wearable-notebooks data-shaping pipeline

This development shallowly embeds the recurring data-shaping snippets of the
Stanford-Health/wearable-notebooks repository and settles the specification
claims about them:

* the z-score outlier flagging and neighbor-averaging replacement loop of
  `polar_verity_sense.py` / `abbott_freestyle_libre_1.py`;
* the `clean_data` outlier-removal function of `whoop_strap_4.py`;
* the windowed outlier replacement of `garmin_fenix_7s.py`;
* the `AdherenceSimulator` non-adherence block deletion of `my_fitness_pal.py`;
* the day/night and rate-of-change statistical preparations of
  `dexcom_g6_pro.py`.

Machine floats are modelled by exact rationals; the float comparison
`|zscore(x)| > threshold` is embedded as the equivalent exact comparison on
squared deviations (see `zFlagB`).  Python/numpy random draws
(`np.random.choice`) are modelled by passing the drawn index list as an
explicit parameter constrained by the draw's postcondition.
-/

/-- The mean `np.mean` of a list of rationals: sum divided by length.
(numpy returns NaN on an empty array; the junk value `0` is produced here
instead, and every use below is shown or assumed non-empty where relevant.) -/
def npMean (l : List ℚ) : ℚ := l.sum / l.length

/-- Population variance (square of `np.std(..)`, `ddof = 0`, as used by
`np.std` and `scipy.stats.zscore` in the notebooks). -/
def popVar (l : List ℚ) : ℚ :=
  (l.map (fun x => (x - npMean l) ^ 2)).sum / l.length

/-- The outlier test `np.abs(stats.zscore(nx)) > threshold` applied to the
value `x` of a point of the series `l`, embedded exactly:

* when the population variance is `0`, `zscore` yields NaN (a 0/0 float
  division) and the float comparison is `False`;
* otherwise `|x - mean| / std > t` holds iff `t < 0` or
  `t^2 * var < (x - mean)^2`, which avoids the irrational `std`.

Sources: `polar_verity_sense.py` (`z_scores = np.abs(stats.zscore(nx))`,
`hr['z'] > threshold`), `abbott_freestyle_libre_1.py` (same on `odata`),
`whoop_strap_4.py` (`np.abs(z_scores) > z_threshold`),
`garmin_fenix_7s.py` (`np.abs(z_scores) > threshold`). -/
def zFlagB (l : List ℚ) (t : ℚ) (x : ℚ) : Bool :=
  decide (popVar l ≠ 0) &&
    (decide (t < 0) || decide (t ^ 2 * popVar l < (x - npMean l) ^ 2))

/-- The list of flagged indices of the series `v` at threshold `t`, in
increasing order: `hr.index[hr['z'] > threshold].tolist()` in the
polar/abbott notebooks and `np.where(np.abs(z_scores) > threshold)[0]`
in the garmin notebook (the index is the default `RangeIndex`). -/
def flaggedIdxList (v : List ℚ) (t : ℚ) : List ℕ :=
  (List.range v.length).filter (fun i => zFlagB v t (v.getD i 0))

/-- Python slice endpoint resolution for a list of length `n`: a negative
endpoint is taken from the end of the list (clamped below at 0), a
non-negative one is clamped above at `n`. -/
def pyIdx (n : ℕ) (i : ℤ) : ℕ :=
  if i < 0 then (i + n).toNat else min i.toNat n

/-- Python slice `l[a:b]` with possibly negative endpoints. -/
def pySlice (l : List ℚ) (a b : ℤ) : List ℚ :=
  (l.drop (pyIdx l.length a)).take (pyIdx l.length b - pyIdx l.length a)

/-- The replacement neighborhood
`cx[idx-3:idx-2] + cx[idx-2:idx-1] + cx[idx+1:idx+2] + cx[idx+2:idx+3]`
of `polar_verity_sense.py` / `abbott_freestyle_libre_1.py`, taken on the
snapshot `cx` under Python slice semantics. -/
def valsAt (cx : List ℚ) (idx : ℕ) : List ℚ :=
  pySlice cx ((idx : ℤ) - 3) ((idx : ℤ) - 2) ++
    pySlice cx ((idx : ℤ) - 2) ((idx : ℤ) - 1) ++
    pySlice cx ((idx : ℤ) + 1) ((idx : ℤ) + 2) ++
    pySlice cx ((idx : ℤ) + 2) ((idx : ℤ) + 3)

/-- The polar/abbott replacement loop run over an arbitrary index list `l`:
`for idx in l: hr.loc[idx, 'bpm'] = np.mean(vals)` where `vals` is read from
the snapshot `cx = list(hr["bpm"].values)` taken before the loop (here the
original series `v`). -/
def detectAndCleanWith (v : List ℚ) (l : List ℕ) : List ℚ :=
  l.foldl (fun hr idx => hr.set idx (npMean (valsAt v idx))) v

/-- The full detect-and-clean cell of `polar_verity_sense.py` lines 789-798
(identically `abbott_freestyle_libre_1.py` lines 820-830): flag the indices
with `|zscore| > threshold` and replace each flagged entry by the mean of its
slice neighborhood taken on the pre-loop snapshot. -/
def detectAndClean (v : List ℚ) (t : ℚ) : List ℚ :=
  detectAndCleanWith v (flaggedIdxList v t)

/-- Function `clean_data` of `whoop_strap_4.py`: remove (rather than replace) every
point whose absolute z-score over `data` exceeds `z_threshold`
(`cleaned_data = data[~outliers]`). -/
def clean_data (data : List ℚ) (z_threshold : ℚ) : List ℚ :=
  data.filter (fun x => !(zFlagB data z_threshold x))

/-- The squared neighbor distances computed (but never used afterwards) by
`polar_verity_sense.py` / `abbott_freestyle_libre_1.py`: for each position
`i+2` of the series, `(m-l1)^2 + (m-l2)^2 + (m-r1)^2 + (m-r2)^2` over
`zip(nx[:-4], nx[1:-3], nx[2:-2], nx[3:-1], nx[4:])`.  The source applies
`math.sqrt` to each entry; the square root of a rational is generally
irrational, so the squared value is kept here — the `distances` column is
only stored, never read, so this bijective-on-nonnegatives recoding is
inessential. -/
def distancesSq (nx : List ℚ) : List ℚ :=
  (List.range (nx.length - 4)).map (fun i =>
    let l1 := nx.getD i 0
    let l2 := nx.getD (i + 1) 0
    let m := nx.getD (i + 2) 0
    let r1 := nx.getD (i + 3) 0
    let r2 := nx.getD (i + 4) 0
    (m - l1) ^ 2 + (m - l2) ^ 2 + (m - r1) ^ 2 + (m - r2) ^ 2)

/-- The state of the polar/abbott outlier-detection cells: the raw value
column (`hr["bpm"]` resp. `odata["level"]`) together with the neighbor
distance column computed by the preceding cell. -/
structure HRFrame where
  bpm : List ℚ
  dist : List ℚ
  deriving DecidableEq

/-- Outlier flagging as performed on an `HRFrame`: the z-scores are computed
from `nx = hr["bpm"]` only (`z_scores = np.abs(stats.zscore(nx))`); the
`dist` column does not enter. -/
def flaggedIdxFrame (fr : HRFrame) (t : ℚ) : List ℕ :=
  flaggedIdxList fr.bpm t

/-- The windowed replacement neighborhood of `garmin_fenix_7s.py`:
`concatenated_data[max(0, idx - 5):min(idx + 5, len(concatenated_data)), 1]`.
Natural subtraction `idx - 5` is exactly Python's `max(0, idx - 5)`. -/
def garminWindow (v : List ℚ) (idx : ℕ) : List ℚ :=
  (v.drop (idx - 5)).take (min (idx + 5) v.length - (idx - 5))

/-- One iteration of the garmin replacement loop: overwrite index `idx` with
the mean of the window of the *current* data (the garmin loop mutates
`concatenated_data` in place, with no snapshot). -/
def garminStep (v : List ℚ) (idx : ℕ) : List ℚ :=
  v.set idx (npMean (garminWindow v idx))

/-- The garmin outlier replacement loop (`garmin_fenix_7s.py` lines 929-941):
`np.where` yields the flagged indices in increasing order and each is
replaced in turn, in place. -/
def garminClean (v : List ℚ) (t : ℚ) : List ℚ :=
  (flaggedIdxList v t).foldl garminStep v

/-- The in-place state of the garmin loop just before the flagged index
`idx` is processed: the prefix of flagged indices preceding `idx` has
already been replaced. -/
def garminStateBefore (v : List ℚ) (t : ℚ) (idx : ℕ) : List ℚ :=
  ((flaggedIdxList v t).takeWhile (fun j => j ≠ idx)).foldl garminStep v

/-- Python `int()` applied to a rational: truncation toward zero (as in
`num_blocks_to_keep = int(adherence_percent * num_blocks)` of
`my_fitness_pal.py`). -/
def pyInt (q : ℚ) : ℤ :=
  if 0 ≤ q then ⌊q⌋ else ⌈q⌉

/-- Function `AdherenceSimulator` of `my_fitness_pal.py`, with the random draw
`idxes = np.random.choice(np.arange(num_blocks), replace=False, size=..)`
passed in as a parameter.  The loop body is

    for i in range(len(data)):
        if i in idxes:
            start = i * block_length
            end = (i + 1) * block_length
            for j in range(i, i+1):
                adhered_data.append(data[j])

`start` and `end` are computed but never used; the inner loop runs for the
single value `j = i`, so exactly the points whose own index lies in `idxes`
are kept. -/
def AdherenceSimulator {α : Type} (idxes : List ℕ) (data : List α) : List α :=
  (data.enum.filter (fun p => decide (p.1 ∈ idxes))).map Prod.snd

/-- The postcondition of `np.random.choice(np.arange(numBlocks),
replace=False, size=k)`: `k` distinct indices below `numBlocks`, in some
order. -/
def validChoice (idxes : List ℕ) (numBlocks k : ℕ) : Prop :=
  idxes.Nodup ∧ idxes.length = k ∧ ∀ i ∈ idxes, i < numBlocks

/-- The error behavior of `np.random.choice(np.arange(numBlocks),
replace=False, size=k)` where `k = int(frac * numBlocks)`: numpy raises a
`ValueError` when the requested size is negative or exceeds the population;
otherwise the draw succeeds and the sample size is returned.  No other
statement of `AdherenceSimulator` can raise, and no validation of `frac`
exists anywhere in the notebook. -/
def choiceCheck (numBlocks : ℕ) (frac : ℚ) : Except String ℕ :=
  if pyInt (frac * numBlocks) < 0 then
    Except.error "ValueError: negative dimensions are not allowed"
  else if (numBlocks : ℤ) < pyInt (frac * numBlocks) then
    Except.error "ValueError: Cannot take a larger sample than population"
  else
    Except.ok (pyInt (frac * numBlocks)).toNat

/-- The parameter handling of a full `AdherenceSimulator` run on a series of
`dataLen` points with blocks of `blockLength` points: `num_blocks =
len(data) // block_length`, then the random draw of
`int(adherence_percent * num_blocks)` block indices. -/
def adherenceRunCheck (blockLength : ℕ) (frac : ℚ) (dataLen : ℕ) :
    Except String ℕ :=
  choiceCheck (dataLen / blockLength) frac

/-- The day/x-night analysis state of `dexcom_g6_pro.py` section 9:
timestamps (POSIX seconds), glucose values, and the two derived columns the
analysis cells assign into `df` (absent before the cells run). -/
structure GlucoseFrame where
  datetime : List ℕ
  glucose_level : List ℚ
  timeOfDay : Option (List Bool)
  ratesOfChange : Option (List ℚ)
  deriving DecidableEq

/-- The day/night mask of `dexcom_g6_pro.py` sections 9.1/9.2 with
`dayStart = time(9, 0, 0)` and `dayEnd = time(0, 0, 0)`: since
`dayStart < dayEnd` is false, the mask is
`(allTimes >= dayStart) | (allTimes <= dayEnd)`, i.e. time-of-day at or
after 09:00:00 (32400 s) or at most 00:00:00. -/
def timeOfDayMask (dt : List ℕ) : List Bool :=
  dt.map (fun s => decide (32400 ≤ s % 86400) || decide (s % 86400 ≤ 0))

/-- Section 9.1 of `dexcom_g6_pro.py`: computes the day/night mask from
`df['datetime']` and assigns it into the input frame
(`df["Time of Day"] = mask`); the Kruskal-Wallis test cell then only reads
the two groups. -/
def section91 (df : GlucoseFrame) : GlucoseFrame :=
  { df with timeOfDay := some (timeOfDayMask df.datetime) }

/-- The rate-of-change column of `dexcom_g6_pro.py` section 9.2:
`(g[i+1] - g[i]) / ((dt[i+1] - dt[i]).seconds / 60)` for `i` up to
`len - 2`.  Python's `timedelta.seconds` is the seconds component of the
delta, i.e. the total seconds modulo 86400 for the forward deltas used
here. -/
def ratesOfChangeList (df : GlucoseFrame) : List ℚ :=
  (List.range (df.glucose_level.length - 1)).map (fun i =>
    (df.glucose_level.getD (i + 1) 0 - df.glucose_level.getD i 0) /
      (((df.datetime.getD (i + 1) 0 - df.datetime.getD i 0) % 86400 : ℕ) /
        (60 : ℚ)))

/-- Section 9.2 of `dexcom_g6_pro.py`: recomputes and assigns the day/night
mask, then assigns `df['Rates of change'] = rates_of_change + [0]` into the
input frame; the `f_oneway` cell then only reads the two groups. -/
def section92 (df : GlucoseFrame) : GlucoseFrame :=
  { df with
    timeOfDay := some (timeOfDayMask df.datetime)
    ratesOfChange := some (ratesOfChangeList df ++ [0]) }

/-! ## Concrete series used as counterexamples and witnesses -/

/-- A series with a single interior outlier (index 4). -/
def dataC1 : List ℚ := [1, 2, 3, 4, 100, 5, 6, 7, 8]

/-- A series whose cleaning is not idempotent at threshold 1. -/
def dataC2 : List ℚ := [0, 0, 0, 0, 1, 10]

/-- A series whose single outlier sits at index 0, next to the left
boundary. -/
def dataC5 : List ℚ := [100, 1, 2, 3, 3, 3, 9, 9, 3]

/-- A 90-point daily series (12 full weeks plus 6 days). -/
def dataN90 : List ℕ := List.range 90

/-- A 90-point daily series of rationals. -/
def dataQ90 : List ℚ := List.replicate 90 0

/-- An 8-point daily series (one full week plus one day). -/
def dataC4 : List ℚ := [10, 11, 12, 13, 14, 15, 16, 17]

/-- A series with two adjacent outliers (indices 6 and 7). -/
def dataC9 : List ℚ :=
  [0, 0, 0, 0, 0, 0, 100, 100, 0, 0, 0, 0, 0, 0, 0, 0]

/-- A series with a single outlier at the last index. -/
def dataC10 : List ℚ :=
  [0, 0, 0, 0, 0, 0, 0, 0, 0, 0, 0, 0, 0, 0, 0, 100]

/-- A glucose frame before any analysis cell has run: no derived columns. -/
def dfC7 : GlucoseFrame :=
  { datetime := [0, 3600], glucose_level := [5, 6],
    timeOfDay := none, ratesOfChange := none }

/-- A five-point heart-rate frame carrying its computed distance column. -/
def frC8a : HRFrame := { bpm := [1, 2, 3, 4, 5], dist := distancesSq [1, 2, 3, 4, 5] }

/-- The same values with an empty distance column. -/
def frC8b : HRFrame := { bpm := [1, 2, 3, 4, 5], dist := [] }

/-! ## Helper lemmas -/

/-- Pointwise result of a left fold of independent `set`s at distinct
in-range indices: position `i` holds `f i` when `i` was processed and its
original value otherwise.  (The written value `f j` does not depend on the
evolving state, exactly as in the polar/abbott loop, which reads its
neighborhood from the pre-loop snapshot.) -/
theorem foldl_set_getElem? (f : ℕ → ℚ) (l : List ℕ) :
    ∀ v : List ℚ, l.Nodup → (∀ j ∈ l, j < v.length) → ∀ i : ℕ,
      (l.foldl (fun a j => a.set j (f j)) v)[i]? =
        if i ∈ l then some (f i) else v[i]? := by
  induction l with
  | nil => intro v _ _ i; simp
  | cons j l ih =>
    intro v hn hb i
    simp only [List.foldl_cons]
    rw [ih (v.set j (f j)) (List.nodup_cons.mp hn).2
      (fun k hk => by
        rw [List.length_set]; exact hb k (List.mem_cons_of_mem _ hk))]
    by_cases hil : i ∈ l
    · simp [hil, List.mem_cons]
    · by_cases hij : i = j
      · subst hij
        simp only [hil, if_false, List.mem_cons, or_false, if_pos rfl,
          eq_self_iff_true, true_or, if_true]
        exact List.getElem?_set_eq_of_lt _ (hb i (List.mem_cons_self i l))
      · simp only [hil, if_false, List.mem_cons, hij, false_or]
        exact List.getElem?_set_ne (fun h => hij h.symm)

/-- Membership in the flagged index list is exactly the in-range z-score
test. -/
theorem mem_flaggedIdxList {v : List ℚ} {t : ℚ} {i : ℕ} :
    i ∈ flaggedIdxList v t ↔ i < v.length ∧ zFlagB v t (v.getD i 0) = true := by
  simp [flaggedIdxList, List.mem_filter, List.mem_range]

theorem flaggedIdxList_nodup (v : List ℚ) (t : ℚ) :
    (flaggedIdxList v t).Nodup :=
  (List.nodup_range _).filter _

theorem flaggedIdxList_lt {v : List ℚ} {t : ℚ} (i : ℕ)
    (h : i ∈ flaggedIdxList v t) : i < v.length :=
  (mem_flaggedIdxList.mp h).1

/-- The detect-and-clean loop, characterized pointwise. -/
theorem detectAndClean_getElem? (v : List ℚ) (t : ℚ) (i : ℕ) :
    (detectAndClean v t)[i]? =
      if i ∈ flaggedIdxList v t then some (npMean (valsAt v i)) else v[i]? :=
  foldl_set_getElem? _ (flaggedIdxList v t) v (flaggedIdxList_nodup v t)
    (fun j hj => flaggedIdxList_lt j hj) i

/-- The number of points `AdherenceSimulator` keeps equals the number of
drawn indices, provided the draw is duplicate-free and in range (as
`np.random.choice(..., replace=False)` over `np.arange(num_blocks)`
guarantees whenever `num_blocks <= len(data)`). -/
theorem AdherenceSimulator_length {α : Type} (idxes : List ℕ) (data : List α)
    (hn : idxes.Nodup) (hb : ∀ i ∈ idxes, i < data.length) :
    (AdherenceSimulator idxes data).length = idxes.length := by
  have h1 : (AdherenceSimulator idxes data).length
      = (data.enum.map Prod.fst).countP (fun i => decide (i ∈ idxes)) := by
    rw [AdherenceSimulator, List.length_map, ← List.countP_eq_length_filter,
      List.countP_map]
    rfl
  have h2 : data.enum.map Prod.fst = List.range data.length := by
    rw [List.enum, List.enumFrom_map_fst, List.range_eq_range']
  have h3 : List.Perm
      ((List.range data.length).filter (fun i => decide (i ∈ idxes)))
      idxes := by
    apply List.perm_of_nodup_nodup_toFinset_eq
      ((List.nodup_range _).filter _) hn
    ext a
    simp only [List.mem_toFinset, List.mem_filter, List.mem_range,
      decide_eq_true_eq]
    exact ⟨fun h => h.2, fun h => ⟨hb a h, h⟩⟩
  rw [h1, h2, List.countP_eq_length_filter]
  exact h3.length_eq

/-- The garmin replacement loop never changes the length of the data. -/
theorem foldl_garminStep_length (l : List ℕ) (v : List ℚ) :
    (l.foldl garminStep v).length = v.length := by
  induction l generalizing v with
  | nil => rfl
  | cons j l ih => simp only [List.foldl_cons, ih, garminStep, List.length_set]

/-- An index not in the processed list is untouched by the garmin loop. -/
theorem foldl_garminStep_getElem?_not_mem (l : List ℕ) (v : List ℚ) (i : ℕ)
    (h : i ∉ l) : (l.foldl garminStep v)[i]? = v[i]? := by
  induction l generalizing v with
  | nil => rfl
  | cons j l ih =>
    simp only [List.foldl_cons]
    rw [ih _ (fun hm => h (List.mem_cons_of_mem _ hm))]
    exact List.getElem?_set_ne
      (fun hj => h (by rw [← hj]; exact List.mem_cons_self j l))

/-- Splitting a list at the first occurrence of a member: the part strictly
before it is `takeWhile (· ≠ a)`. -/
theorem takeWhile_ne_decomp {α : Type} [DecidableEq α] (a : α) :
    ∀ l : List α, a ∈ l →
      ∃ l₂, l = l.takeWhile (fun j => j ≠ a) ++ a :: l₂ := by
  intro l
  induction l with
  | nil => intro h; exact absurd h (List.not_mem_nil a)
  | cons x l ih =>
    intro h
    by_cases hx : x = a
    · subst hx
      exact ⟨l, by simp [List.takeWhile_cons]⟩
    · obtain ⟨l₂, hl₂⟩ := ih (by
        rcases List.mem_cons.mp h with h' | h'
        · exact absurd h'.symm hx
        · exact h')
      refine ⟨l₂, ?_⟩
      have hp : (decide (x ≠ a) : Bool) = true := by
        simp [hx]
      rw [List.takeWhile_cons]
      simp only [hp, if_true, List.cons_append]
      exact congrArg (x :: ·) hl₂

/-! ## Claim theorems -/

/-- C1 (amended): for every series and threshold, Detect-and-clean flags
exactly the points whose absolute z-score over the raw value column exceeds
the threshold, and replaces each flagged index `i` with the mean of the
pre-loop snapshot values selected by the Python slices
`cx[i-3:i-2] + cx[i-2:i-1] + cx[i+1:i+2] + cx[i+2:i+3]` — positions `i-3`,
`i-2`, `i+1`, `i+2` for interior `i` (the immediate left neighbor is
skipped), with Python's negative-index wrap to the end of the series for
`i < 3` and no exclusion of flagged neighbors — while every unflagged point
keeps its original value. -/
theorem detect_flags_and_slice_replacement (v : List ℚ) (t : ℚ) (i : ℕ) :
    (i ∈ flaggedIdxList v t ↔
      i < v.length ∧ zFlagB v t (v.getD i 0) = true) ∧
    (detectAndClean v t)[i]? =
      if i ∈ flaggedIdxList v t then some (npMean (valsAt v i)) else v[i]? :=
  ⟨mem_flaggedIdxList, detectAndClean_getElem? v t i⟩

/-- C1 (counterexample): on `dataC1` at threshold 2 exactly index 4 is
flagged; its replacement is 4, the mean of the snapshot values at positions
1, 2, 5, 6, whereas the mean of the two points immediately before and the
two immediately after (positions 2, 3, 5, 6, none of them flagged) is 9/2.
The claimed neighbor rule therefore does not describe the code. -/
theorem detect_neighbor_rule_cex :
    flaggedIdxList dataC1 2 = [4] ∧
    (detectAndClean dataC1 2)[4]? = some 4 ∧
    npMean [dataC1.getD 2 0, dataC1.getD 3 0, dataC1.getD 5 0,
      dataC1.getD 6 0] = 9/2 ∧
    (4 : ℚ) ≠ 9/2 := by
  have h1 : flaggedIdxList dataC1 2 = [4] := by
    norm_num [flaggedIdxList, dataC1, zFlagB, popVar, npMean, List.filter]
  have h2 : valsAt dataC1 4 = [2, 3, 5, 6] := by
    simp only [valsAt, dataC1, pySlice, pyIdx, Int.toNat_ofNat]
    norm_num [List.take, List.drop]
  refine ⟨h1, ?_, ?_, by norm_num⟩
  · rw [detectAndClean_getElem?, if_pos (by rw [h1]; exact List.mem_cons_self 4 []), h2]
    norm_num [npMean]
  · norm_num [npMean, dataC1, List.getD]

/-- C2 (amended): after Detect-and-clean (whoop `clean_data`) runs once,
every surviving point has absolute z-score at most the threshold with
respect to the *original* series' mean and standard deviation; the z-scores
recomputed over the cleaned series itself may exceed the threshold again,
so a second run can remove further points. -/
theorem clean_data_no_flag_wrt_original (d : List ℚ) (t : ℚ) (x : ℚ)
    (hx : x ∈ clean_data d t) : zFlagB d t x = false := by
  have h := (List.mem_filter.mp hx).2
  simpa using h

/-- C2 (witness): the surviving point 0 of `dataC2` at threshold 1 is not
flagged with respect to the original series. -/
theorem clean_data_no_flag_wrt_original_witness :
    (0 : ℚ) ∈ clean_data dataC2 1 ∧ zFlagB dataC2 1 0 = false := by
  have hm : (0 : ℚ) ∈ clean_data dataC2 1 := by
    norm_num [clean_data, dataC2, zFlagB, popVar, npMean, List.filter]
  exact ⟨hm, clean_data_no_flag_wrt_original dataC2 1 0 hm⟩

/-- C2 (counterexample): cleaning `dataC2` at threshold 1 removes only the
point 10; the surviving point 1 has recomputed |z| = 2 > 1 over the cleaned
series, and a second run with the same threshold removes it.  So after one
run a remaining point can exceed the threshold under recomputed z-scores,
and Detect-and-clean is not idempotent. -/
theorem clean_data_not_idempotent_cex :
    clean_data dataC2 1 = [0, 0, 0, 0, 1] ∧
    zFlagB (clean_data dataC2 1) 1 1 = true ∧
    clean_data (clean_data dataC2 1) 1 ≠ clean_data dataC2 1 := by
  have h1 : clean_data dataC2 1 = [0, 0, 0, 0, 1] := by
    norm_num [clean_data, dataC2, zFlagB, popVar, npMean, List.filter]
  have h2 : clean_data [0, 0, 0, 0, 1] 1 = [0, 0, 0, 0] := by
    norm_num [clean_data, zFlagB, popVar, npMean, List.filter]
  refine ⟨h1, ?_, ?_⟩
  · rw [h1]
    norm_num [zFlagB, popVar, npMean]
  · rw [h1, h2]
    simp

/-- C5: on `dataC5` at threshold 2 only index 0 — the left boundary — is
flagged.  No out-of-range access occurs (Python slices cannot raise), but
the neighborhood assembled for index 0 is `[v[6], v[7], v[1], v[2]]`: the
slices `cx[-3:-2]` and `cx[-2:-1]` wrap around and pick the values 9, 9
from the *opposite end* of the series, so the replacement is 21/4 instead
of the average 3/2 of the in-range right neighbors the notebook's own
description ("the points to its left and right") intends. -/
theorem boundary_wraparound_eval :
    flaggedIdxList dataC5 2 = [0] ∧
    valsAt dataC5 0 =
      [dataC5.getD 6 0, dataC5.getD 7 0, dataC5.getD 1 0, dataC5.getD 2 0] ∧
    (detectAndClean dataC5 2)[0]? = some (21/4) ∧
    npMean [dataC5.getD 1 0, dataC5.getD 2 0] = 3/2 ∧
    (21 : ℚ)/4 ≠ 3/2 := by
  have h1 : flaggedIdxList dataC5 2 = [0] := by
    norm_num [flaggedIdxList, dataC5, zFlagB, popVar, npMean, List.filter]
  have h2 : valsAt dataC5 0 = [9, 9, 1, 2] := by
    simp only [valsAt, dataC5, pySlice, pyIdx, Int.toNat_ofNat]
    norm_num [List.take, List.drop]
  refine ⟨h1, ?_, ?_, ?_, by norm_num⟩
  · rw [h2]
    norm_num [dataC5, List.getD]
  · rw [detectAndClean_getElem?, if_pos (by rw [h1]; exact List.mem_cons_self 0 []), h2]
    norm_num [npMean]
  · norm_num [npMean, dataC5, List.getD]

/-- C7 (amended): the day/night comparison (9.1) and the variability
analysis (9.2) of the dexcom notebook leave every timestamp and every
glucose value of the input unchanged, but each *adds* a derived column to
the input frame: `Time of Day` (both), and `Rates of change` (9.2). -/
theorem statsummary_preserves_series_values (df : GlucoseFrame) :
    (section91 df).datetime = df.datetime ∧
    (section91 df).glucose_level = df.glucose_level ∧
    (section92 df).datetime = df.datetime ∧
    (section92 df).glucose_level = df.glucose_level ∧
    (section91 df).timeOfDay = some (timeOfDayMask df.datetime) ∧
    (section92 df).ratesOfChange = some (ratesOfChangeList df ++ [0]) :=
  ⟨rfl, rfl, rfl, rfl, rfl, rfl⟩

/-- C7 (counterexample): on a frame with no derived columns, running the
day/night analysis adds the `Time of Day` column — the input frame is
mutated, contradicting "adds no fields to it". -/
theorem statsummary_adds_column_cex :
    dfC7.timeOfDay = none ∧ (section91 dfC7).timeOfDay ≠ none := by
  exact ⟨rfl, by simp [section91]⟩

/-- C8: the set of flagged indices is determined solely by the z-scores of
the raw value column: two frames with equal value columns produce equal
flag sets regardless of their neighbor-distance columns, and an index is
flagged iff it is in range and its value's absolute z-score exceeds the
threshold. -/
theorem flags_ignore_distances (fr1 fr2 : HRFrame) (t : ℚ)
    (h : fr1.bpm = fr2.bpm) :
    flaggedIdxFrame fr1 t = flaggedIdxFrame fr2 t ∧
    ∀ i : ℕ, i ∈ flaggedIdxFrame fr1 t ↔
      i < fr1.bpm.length ∧ zFlagB fr1.bpm t (fr1.bpm.getD i 0) = true := by
  constructor
  · rw [flaggedIdxFrame, flaggedIdxFrame, h]
  · intro i
    exact mem_flaggedIdxList

/-- C8 (witness): two frames sharing the value column but with different
distance columns are flagged identically. -/
theorem flags_ignore_distances_witness :
    flaggedIdxFrame frC8a 3 = flaggedIdxFrame frC8b 3 ∧
    frC8a.dist ≠ frC8b.dist := by
  refine ⟨(flags_ignore_distances frC8a frC8b 3 rfl).1, ?_⟩
  norm_num [frC8a, frC8b, distancesSq]

/-- Evaluation `int(0.89 * 12) = 10`: the number of week blocks kept from a 90-point
series at adherence 0.89. -/
theorem pyInt_89_12 : (pyInt ((89/100 : ℚ) * ((12 : ℕ) : ℚ))).toNat = 10 := by
  have h : ((89 : ℚ)/100 * ((12 : ℕ) : ℚ)) = 267/25 := by norm_num
  rw [pyInt, if_pos (by rw [h]; norm_num), h]
  have hf : ⌊(267/25 : ℚ)⌋ = 10 := by
    rw [Int.floor_eq_iff] <;> norm_num
  rw [hf]
  rfl

/-- Python `int()` of a whole number is that number. -/
theorem pyInt_natCast (n : ℕ) : (pyInt ((n : ℕ) : ℚ)).toNat = n := by
  rw [pyInt, if_pos (by positivity)]
  simp

/-- C3 (amended): `AdherenceSimulator` at `block_level="week"` and
`adherence_percent=0.89` on a 90-point series keeps exactly
`int(0.89 * (90 // 7)) = 10` individual points — the points whose own index
equals one of the 10 drawn block indices, all below 12 — rather than 10
whole weeks.  Week 1 (indices 7..13) is split by every valid draw: at least
one of its points is kept (the draw cannot fit 10 distinct indices below 7)
while index 13 is never kept, so the block-deletion policy does split weeks
and cannot retain 11-13 full weeks. -/
theorem adherence_week_block_split (data : List ℚ) (idxes : List ℕ)
    (h90 : data.length = 90)
    (hch : validChoice idxes (data.length / 7)
      (pyInt ((89/100 : ℚ) * ((data.length / 7 : ℕ) : ℚ))).toNat) :
    (AdherenceSimulator idxes data).length = 10 ∧
    (∃ j ∈ idxes, 7 ≤ j ∧ j ≤ 13) ∧
    13 ∉ idxes := by
  obtain ⟨hnd, hlen, hbound⟩ := hch
  have hnb : data.length / 7 = 12 := by rw [h90]
  rw [hnb] at hlen hbound
  rw [pyInt_89_12] at hlen
  have hb' : ∀ i ∈ idxes, i < data.length := by
    intro i hi
    have := hbound i hi
    omega
  refine ⟨?_, ?_, ?_⟩
  · rw [AdherenceSimulator_length idxes data hnd hb', hlen]
  · by_contra hno
    push_neg at hno
    have hj7 : ∀ j ∈ idxes, j < 7 := by
      intro j hj
      by_contra hge
      push_neg at hge
      have h1 := hno j hj hge
      have h2 := hbound j hj
      omega
    have hsub : idxes.toFinset ⊆ Finset.range 7 := by
      intro a ha
      exact Finset.mem_range.mpr (hj7 a (List.mem_toFinset.mp ha))
    have hcard : idxes.toFinset.card = 10 := by
      rw [List.card_toFinset, hnd.dedup, hlen]
    have hle := Finset.card_le_card hsub
    rw [hcard, Finset.card_range] at hle
    omega
  · intro h13
    have := hbound 13 h13
    omega

/-- C3 (witness): the draw `[0,..,9]` is a valid 10-element sample of the
12 week-block indices of a 90-point series; the simulator keeps 10 points,
some point of week 1 is kept, and point 13 is not. -/
theorem adherence_week_block_split_witness :
    dataQ90.length = 90 ∧
    validChoice [0, 1, 2, 3, 4, 5, 6, 7, 8, 9] (dataQ90.length / 7)
      (pyInt ((89/100 : ℚ) * ((dataQ90.length / 7 : ℕ) : ℚ))).toNat ∧
    (AdherenceSimulator [0, 1, 2, 3, 4, 5, 6, 7, 8, 9] dataQ90).length = 10 ∧
    (∃ j ∈ ([0, 1, 2, 3, 4, 5, 6, 7, 8, 9] : List ℕ), 7 ≤ j ∧ j ≤ 13) ∧
    13 ∉ ([0, 1, 2, 3, 4, 5, 6, 7, 8, 9] : List ℕ) := by
  have h90 : dataQ90.length = 90 := by simp [dataQ90]
  have hnb : dataQ90.length / 7 = 12 := by rw [h90]
  have hch : validChoice [0, 1, 2, 3, 4, 5, 6, 7, 8, 9] (dataQ90.length / 7)
      (pyInt ((89/100 : ℚ) * ((dataQ90.length / 7 : ℕ) : ℚ))).toNat := by
    refine ⟨by decide, ?_, ?_⟩
    · rw [hnb, pyInt_89_12]
      rfl
    · rw [hnb]
      decide
  obtain ⟨ha, hb, hc⟩ :=
    adherence_week_block_split dataQ90 [0, 1, 2, 3, 4, 5, 6, 7, 8, 9] h90 hch
  exact ⟨h90, hch, ha, hb, hc⟩

/-- C3 (counterexample): under the valid draw `[0,..,9]` on a 90-point
series with week blocks at adherence 0.89, the simulator returns the 10
single points of index 0..9 — not whole weeks.  Point 7 of week 1 is kept
while point 13 of week 1 is not, so week 1 is split, and with only 10
points retained no 11 full weeks can be present. -/
theorem adherence_week_retention_cex :
    AdherenceSimulator [0, 1, 2, 3, 4, 5, 6, 7, 8, 9] dataN90 =
      List.range 10 ∧
    ([0, 1, 2, 3, 4, 5, 6, 7, 8, 9] : List ℕ).Nodup ∧
    ([0, 1, 2, 3, 4, 5, 6, 7, 8, 9] : List ℕ).length =
      (pyInt ((89/100 : ℚ) * ((dataN90.length / 7 : ℕ) : ℚ))).toNat ∧
    (([0, 1, 2, 3, 4, 5, 6, 7, 8, 9] : List ℕ).all
      (fun i => i < dataN90.length / 7)) = true ∧
    (7 : ℕ) ∈ AdherenceSimulator [0, 1, 2, 3, 4, 5, 6, 7, 8, 9] dataN90 ∧
    (13 : ℕ) ∉ AdherenceSimulator [0, 1, 2, 3, 4, 5, 6, 7, 8, 9] dataN90 ∧
    (AdherenceSimulator [0, 1, 2, 3, 4, 5, 6, 7, 8, 9] dataN90).length
      = 10 := by
  have hnb : dataN90.length / 7 = 12 := by simp [dataN90]
  refine ⟨by decide, by decide, ?_, ?_, by decide, by decide, by decide⟩
  · rw [hnb, pyInt_89_12]
    rfl
  · rw [hnb]
    decide

/-- C4 (amended): under the deletion policy `AdherenceSimulator` keeps
exactly as many points as the draw has block indices, i.e.
`int(keep_fraction * (len(data) // block_length))`; hence
`len(result) <= len(input)` always, `len(result) == 0` at
`keep_fraction == 0`, and `len(result) == len(input)` at
`keep_fraction == 1` with day-sized blocks.  (With week-sized blocks
`keep_fraction == 1` keeps only `len(data) // 7` points; see the
counterexample.) -/
theorem adherence_deletion_length (data : List ℚ) (blockLength : ℕ)
    (frac : ℚ) (idxes : List ℕ) (hbl : 1 ≤ blockLength)
    (hch : validChoice idxes (data.length / blockLength)
      (pyInt (frac * ((data.length / blockLength : ℕ) : ℚ))).toNat) :
    (AdherenceSimulator idxes data).length = idxes.length ∧
    (AdherenceSimulator idxes data).length ≤ data.length ∧
    (frac = 0 → (AdherenceSimulator idxes data).length = 0) ∧
    (frac = 1 → blockLength = 1 →
      (AdherenceSimulator idxes data).length = data.length) := by
  obtain ⟨hnd, hlen, hbound⟩ := hch
  have hnb : data.length / blockLength ≤ data.length := Nat.div_le_self _ _
  have hb' : ∀ i ∈ idxes, i < data.length := by
    intro i hi
    exact lt_of_lt_of_le (hbound i hi) hnb
  have hAS := AdherenceSimulator_length idxes data hnd hb'
  refine ⟨hAS, ?_, ?_, ?_⟩
  · have hsub : idxes.toFinset ⊆ Finset.range data.length := by
      intro a ha
      exact Finset.mem_range.mpr (hb' a (List.mem_toFinset.mp ha))
    have hlc : idxes.toFinset.card = idxes.length := by
      rw [List.card_toFinset, hnd.dedup]
    have hle := Finset.card_le_card hsub
    rw [hlc, Finset.card_range] at hle
    rw [hAS]
    exact hle
  · intro h0
    subst h0
    rw [zero_mul] at hlen
    have hz : (pyInt 0).toNat = 0 := by
      rw [pyInt, if_pos le_rfl]
      simp
    rw [hz] at hlen
    rw [hAS, hlen]
  · intro h1 hb1
    subst h1
    subst hb1
    rw [Nat.div_one] at hlen
    rw [one_mul, pyInt_natCast] at hlen
    rw [hAS, hlen]

/-- C4 (witness): with day-sized blocks and `keep_fraction = 1` on a
three-point series, the valid draw `[0, 1, 2]` keeps all three points. -/
theorem adherence_deletion_length_witness :
    validChoice [0, 1, 2] (([1, 2, 3] : List ℚ).length / 1)
      (pyInt ((1 : ℚ) * ((([1, 2, 3] : List ℚ).length / 1 : ℕ) : ℚ))).toNat ∧
    (AdherenceSimulator [0, 1, 2] ([1, 2, 3] : List ℚ)).length =
      ([1, 2, 3] : List ℚ).length := by
  have hch : validChoice [0, 1, 2] (([1, 2, 3] : List ℚ).length / 1)
      (pyInt ((1 : ℚ) * ((([1, 2, 3] : List ℚ).length / 1 : ℕ) : ℚ))).toNat := by
    refine ⟨by decide, ?_, by decide⟩
    rw [one_mul]
    show (3 : ℕ) = (pyInt (((3 : ℕ) : ℚ))).toNat
    rw [pyInt_natCast]
  have h := adherence_deletion_length [1, 2, 3] 1 1 [0, 1, 2] le_rfl hch
  exact ⟨hch, h.2.2.2 rfl rfl⟩

/-- C4 (counterexample): with week-sized blocks and `keep_fraction = 1` on
the 8-point series `dataC4`, the only valid draw is `[0]` (there is a
single week block), and the simulator returns the single point `[10]`:
`len(result) = 1 ≠ 8 = len(input)`, so full adherence does not preserve the
series for week-sized blocks. -/
theorem adherence_full_keep_week_cex :
    validChoice [0] (dataC4.length / 7)
      (pyInt ((1 : ℚ) * ((dataC4.length / 7 : ℕ) : ℚ))).toNat ∧
    AdherenceSimulator [0] dataC4 = [10] ∧
    dataC4.length = 8 ∧
    (AdherenceSimulator [0] dataC4).length ≠ dataC4.length := by
  refine ⟨⟨by decide, ?_, by decide⟩, by decide, by decide, by decide⟩
  rw [one_mul]
  show (1 : ℕ) = (pyInt (((1 : ℕ) : ℚ))).toNat
  rw [pyInt_natCast]

/-- C6 (amended): `AdherenceSimulator` performs no parameter validation and
no `InvalidParameterError` exists anywhere in the notebooks.  For
`adherence_percent` in [0, 1] no error is raised: the draw succeeds and
samples `int(adherence_percent * num_blocks)` block indices.  (Outside
[0, 1] the only possible failure is a numpy `ValueError` from
`np.random.choice`, raised exactly when `int(frac * num_blocks)` is
negative or exceeds `num_blocks` — see the counterexample for an
out-of-range fraction that silently succeeds.) -/
theorem adherence_no_parameter_validation (blockLength dataLen : ℕ)
    (frac : ℚ) (h0 : 0 ≤ frac) (h1 : frac ≤ 1) :
    adherenceRunCheck blockLength frac dataLen =
      Except.ok (pyInt (frac * ((dataLen / blockLength : ℕ) : ℚ))).toNat := by
  rw [adherenceRunCheck, choiceCheck]
  have hq : (0 : ℚ) ≤ frac * ((dataLen / blockLength : ℕ) : ℚ) :=
    mul_nonneg h0 (by positivity)
  have hk : pyInt (frac * ((dataLen / blockLength : ℕ) : ℚ)) =
      ⌊frac * ((dataLen / blockLength : ℕ) : ℚ)⌋ := if_pos hq
  have hge : 0 ≤ pyInt (frac * ((dataLen / blockLength : ℕ) : ℚ)) := by
    rw [hk]
    exact Int.floor_nonneg.mpr hq
  have hle : pyInt (frac * ((dataLen / blockLength : ℕ) : ℚ)) ≤
      ((dataLen / blockLength : ℕ) : ℤ) := by
    rw [hk]
    calc ⌊frac * ((dataLen / blockLength : ℕ) : ℚ)⌋
        ≤ ⌊((dataLen / blockLength : ℕ) : ℚ)⌋ :=
          Int.floor_le_floor (mul_le_of_le_one_left (by positivity) h1)
      _ = ((dataLen / blockLength : ℕ) : ℤ) := Int.floor_natCast _
  rw [if_neg (by omega), if_neg (by omega)]

/-- C6 (witness): `adherence_percent = 0.89` lies in [0, 1] and the run
succeeds without error. -/
theorem adherence_no_parameter_validation_witness :
    (0 : ℚ) ≤ 89/100 ∧ (89/100 : ℚ) ≤ 1 ∧
    adherenceRunCheck 7 (89/100) 90 =
      Except.ok (pyInt ((89/100 : ℚ) * ((90 / 7 : ℕ) : ℚ))).toNat :=
  ⟨by norm_num, by norm_num,
    adherence_no_parameter_validation 7 90 (89/100) (by norm_num)
      (by norm_num)⟩

/-- C6 (counterexample): the out-of-range fraction `-0.01` raises no error
at all on a 90-point series with week blocks — `int(-0.01 * 12) = 0`, a
legal sample size — so `AdherenceSimulator` does not fail with
`InvalidParameterError` (or any error) for every `keep_fraction` outside
[0, 1]. -/
theorem adherence_invalid_param_cex :
    (-1/100 : ℚ) < 0 ∧
    adherenceRunCheck 7 (-1/100) 90 = Except.ok 0 := by
  refine ⟨by norm_num, ?_⟩
  rw [adherenceRunCheck, choiceCheck]
  have h90 : (90 : ℕ) / 7 = 12 := by norm_num
  rw [h90]
  have hp : pyInt ((-1/100 : ℚ) * ((12 : ℕ) : ℚ)) = 0 := by
    rw [pyInt, if_neg (by norm_num)]
    have h : ((-1 : ℚ)/100 * ((12 : ℕ) : ℚ)) = -3/25 := by norm_num
    rw [h]
    rw [Int.ceil_eq_iff] <;> norm_num
  rw [hp]
  norm_num

/-- C9: the polar/abbott replacement loop reads every neighborhood from the
snapshot `cx` taken before any replacement, so the cleaned series does not
depend on the order in which the flagged indices are processed — running
the loop over any permutation of the flagged index list yields the same
result — and each flagged index ends up holding the mean of *original*
(possibly themselves flagged) neighbor values, with no cascading. -/
theorem detect_clean_order_independent (v : List ℚ) (t : ℚ) (l : List ℕ)
    (h : List.Perm l (flaggedIdxList v t)) :
    detectAndCleanWith v l = detectAndClean v t ∧
    ∀ i ∈ flaggedIdxList v t,
      (detectAndClean v t)[i]? = some (npMean (valsAt v i)) := by
  constructor
  · apply List.ext_getElem?
    intro n
    have hnod : l.Nodup := h.nodup_iff.mpr (flaggedIdxList_nodup v t)
    have hbl : ∀ j ∈ l, j < v.length := fun j hj =>
      flaggedIdxList_lt j (h.mem_iff.mp hj)
    rw [detectAndCleanWith, foldl_set_getElem? _ l v hnod hbl n,
      detectAndClean, detectAndCleanWith,
      foldl_set_getElem? _ _ v (flaggedIdxList_nodup v t)
        (fun j hj => flaggedIdxList_lt j hj) n]
    by_cases hn : n ∈ flaggedIdxList v t
    · rw [if_pos (h.mem_iff.mpr hn), if_pos hn]
    · rw [if_neg (fun hc => hn (h.mem_iff.mp hc)), if_neg hn]
  · intro i hi
    rw [detectAndClean_getElem?, if_pos hi]

/-- C9 (witness): on `dataC9` the two adjacent outliers at indices 6 and 7
are the flagged indices; processing them in reversed order yields the same
cleaned series as the loop's own order. -/
theorem detect_clean_order_independent_witness :
    List.Perm [7, 6] (flaggedIdxList dataC9 2) ∧
    detectAndCleanWith dataC9 [7, 6] = detectAndClean dataC9 2 := by
  have hf : flaggedIdxList dataC9 2 = [6, 7] := by
    norm_num [flaggedIdxList, dataC9, zFlagB, popVar, npMean, List.filter]
  have hp : List.Perm [7, 6] (flaggedIdxList dataC9 2) := by
    rw [hf]
    exact List.Perm.swap 6 7 []
  exact ⟨hp, (detect_clean_order_independent dataC9 2 [7, 6] hp).1⟩

/-- C10: for every flagged index `idx` of the garmin loop, the final value
at `idx` is the mean of the window `[max(0, idx-5), min(idx+5, len))` of
the in-place state just before `idx` is processed; that window is in range
and non-empty, contains position `idx` itself, and the value there at that
moment is still the original one, so the flagged point's own outlier value
contributes to its replacement mean. -/
theorem garmin_window_replacement (v : List ℚ) (t : ℚ) (idx : ℕ)
    (h : idx ∈ flaggedIdxList v t) :
    (garminStateBefore v t idx).length = v.length ∧
    (garminStateBefore v t idx)[idx]? = v[idx]? ∧
    (garminClean v t)[idx]? =
      some (npMean (garminWindow (garminStateBefore v t idx) idx)) ∧
    idx - 5 ≤ idx ∧
    idx < min (idx + 5) v.length ∧
    (garminWindow (garminStateBefore v t idx) idx).length =
      min (idx + 5) v.length - (idx - 5) ∧
    0 < (garminWindow (garminStateBefore v t idx) idx).length ∧
    (garminWindow (garminStateBefore v t idx) idx)[idx - (idx - 5)]? =
      v[idx]? := by
  have hlen : idx < v.length := flaggedIdxList_lt idx h
  obtain ⟨l₂, hdec⟩ := takeWhile_ne_decomp idx (flaggedIdxList v t) h
  have hslen : (garminStateBefore v t idx).length = v.length :=
    foldl_garminStep_length _ v
  have hidxpre :
      idx ∉ (flaggedIdxList v t).takeWhile (fun j => j ≠ idx) := by
    intro hm
    have := List.mem_takeWhile_imp hm
    simp at this
  have hsidx : (garminStateBefore v t idx)[idx]? = v[idx]? :=
    foldl_garminStep_getElem?_not_mem _ v idx hidxpre
  have hnd := flaggedIdxList_nodup v t
  have hidxl₂ : idx ∉ l₂ := by
    rw [hdec] at hnd
    have h2 := (List.nodup_append.mp hnd).2.1
    exact (List.nodup_cons.mp h2).1
  have hclean : (garminClean v t)[idx]? =
      some (npMean (garminWindow (garminStateBefore v t idx) idx)) := by
    rw [garminClean]
    conv_lhs => rw [hdec]
    rw [List.foldl_append, List.foldl_cons,
      foldl_garminStep_getElem?_not_mem l₂ _ idx hidxl₂]
    show (garminStep (garminStateBefore v t idx) idx)[idx]? = _
    rw [garminStep]
    exact List.getElem?_set_eq_of_lt _ (by rw [hslen]; exact hlen)
  have hwlen : (garminWindow (garminStateBefore v t idx) idx).length =
      min (idx + 5) v.length - (idx - 5) := by
    rw [garminWindow, List.length_take, List.length_drop, hslen]
    omega
  have hlt : idx < min (idx + 5) v.length := by omega
  have hpos : 0 < (garminWindow (garminStateBefore v t idx) idx).length := by
    rw [hwlen]
    omega
  have hget : (garminWindow (garminStateBefore v t idx) idx)[idx - (idx - 5)]? = v[idx]? := by
    rw [garminWindow]
    rw [List.getElem?_take_of_lt (by rw [hslen]; omega)]
    rw [List.getElem?_drop]
    have hidxeq : idx - 5 + (idx - (idx - 5)) = idx := by omega
    rw [hidxeq, hsidx]
  exact ⟨hslen, hsidx, hclean, Nat.sub_le idx 5, hlt, hwlen, hpos, hget⟩

/-- C10 (witness): on `dataC10` at threshold 3 the only flagged index is
15, and its final value is the mean of the window of the state before its
replacement. -/
theorem garmin_window_replacement_witness :
    15 ∈ flaggedIdxList dataC10 3 ∧
    (garminClean dataC10 3)[15]? =
      some (npMean (garminWindow (garminStateBefore dataC10 3 15) 15)) := by
  have hf : flaggedIdxList dataC10 3 = [15] := by
    norm_num [flaggedIdxList, dataC10, zFlagB, popVar, npMean, List.filter]
  have hm : 15 ∈ flaggedIdxList dataC10 3 := by
    rw [hf]
    exact List.mem_cons_self 15 []
  exact ⟨hm, (garmin_window_replacement dataC10 3 15 hm).2.2.1⟩
